import Mathlib

/-!
Verification development for the stage-perf document store backend
(`my_app`): a shallow embedding of the permission resolver
(`permissions.py`), the share-link endpoints and version/restore
endpoints (`views.py`), and the audit recorder (`audit.py`),
together with theorems checking the natural-language specification
against this embedding.

Conventions of the embedding:
* database tables become Lean lists kept in insertion order;
* Django querysets (`filter`, `first`, `get`, `update_or_create`)
  become list operations on those lists;
* timestamps become natural numbers; `timezone.now()` becomes an
  explicit `now` parameter; `expires_at__gt=now` becomes `now < t`;
* Python `None` becomes `Option.none`; a fallible operation returns
  `Option`/`Except`.
-/

namespace StagePerf

/-- `Role` text choices from `models.py`. -/
inductive Role where
  | OWNER
  | EDITOR
  | VIEWER
  deriving DecidableEq, Repr

/-- `Action` text choices from `models.py`. -/
inductive Action where
  | VIEW
  | EDIT
  | SHARE
  | EXPORT
  deriving DecidableEq, Repr

/-- `subject_type` choices of the `ACL` model. -/
inductive SubjectType where
  | user
  | group
  | share_link
  deriving DecidableEq, Repr

/-- `ROLE_HIERARCHY` from `permissions.py`: OWNER 3, EDITOR 2, VIEWER 1. -/
def ROLE_HIERARCHY : Role → Nat
  | Role.OWNER => 3
  | Role.EDITOR => 2
  | Role.VIEWER => 1

/-- The relevant fields of Django's auth user as consumed by
`permissions.py`: id, `is_authenticated`, the admin flags, and the
group-membership ids (`user.groups`). -/
structure User where
  id : Nat
  is_authenticated : Bool
  is_staff : Bool
  is_superuser : Bool
  groups : List Nat
  deriving DecidableEq, Repr

/-- The `Document` model fields used by the permission and versioning
code: pk, title, html, text, `owner_id` (nullable FK), and
`current_version_no` (defaults to 1 at the model level). -/
structure Document where
  id : Nat
  title : String
  html : Option String
  text : Option String
  owner_id : Option Nat
  current_version_no : Nat
  deriving DecidableEq, Repr

/-- An `ACL` row: `(document, subject_type, subject_id, role,
expires_at)`.  `subject_id` is a `TextField`, so user/group ids are
stored stringified (`str(user.id)`). -/
structure ACL where
  document_id : Nat
  subject_type : SubjectType
  subject_id : String
  role : Role
  expires_at : Option Nat
  deriving DecidableEq, Repr

/-- The expiry filter applied to ACL querysets in `permissions.py`:
`Q(expires_at__isnull=True) | Q(expires_at__gt=timezone.now())`. -/
def aclActive (now : Nat) (a : ACL) : Bool :=
  match a.expires_at with
  | none => true
  | some t => decide (now < t)

/-- Propositional form of `aclActive`. -/
def ActiveAt (now : Nat) (a : ACL) : Prop :=
  a.expires_at = none ∨ ∃ t, a.expires_at = some t ∧ now < t

theorem aclActive_iff (now : Nat) (a : ACL) :
    aclActive now a = true ↔ ActiveAt now a := by
  unfold aclActive ActiveAt
  cases h : a.expires_at with
  | none => simp
  | some t => simp [h]

/-- Match predicate of the direct-user ACL queryset in
`get_user_effective_role`: `document=document, subject_type='user',
subject_id=str(user.id)`. -/
def MatchesDirectUser (user : User) (document : Document) (a : ACL) : Prop :=
  a.document_id = document.id ∧ a.subject_type = SubjectType.user ∧
    a.subject_id = toString user.id

instance (user : User) (document : Document) (a : ACL) :
    Decidable (MatchesDirectUser user document a) := by
  unfold MatchesDirectUser; infer_instance

/-- Match predicate of the group ACL queryset in
`get_user_effective_role`: `document=document, subject_type='group',
subject_id__in=[str(g) for g in user.groups]`. -/
def MatchesGroup (user : User) (document : Document) (a : ACL) : Prop :=
  a.document_id = document.id ∧ a.subject_type = SubjectType.group ∧
    a.subject_id ∈ user.groups.map toString

instance (user : User) (document : Document) (a : ACL) :
    Decidable (MatchesGroup user document a) := by
  unfold MatchesGroup; infer_instance

/-- The direct-user ACL queryset of `get_user_effective_role`
(match filter composed with the expiry filter), in table order. -/
def directUserAcls (acls : List ACL) (now : Nat) (user : User)
    (document : Document) : List ACL :=
  acls.filter fun a => decide (MatchesDirectUser user document a) && aclActive now a

/-- The group ACL queryset of `get_user_effective_role`
(match filter composed with the expiry filter), in table order. -/
def groupAcls (acls : List ACL) (now : Nat) (user : User)
    (document : Document) : List ACL :=
  acls.filter fun a => decide (MatchesGroup user document a) && aclActive now a

/-- Python's `max(roles, key=k)` over a list: `none` on the empty
list, otherwise a left fold that replaces the running best exactly
when the key is strictly greater (ties keep the earlier element). -/
def pyMax (k : Role → Nat) : List Role → Option Role
  | [] => none
  | r :: rs => some (rs.foldl (fun best x => if k best < k x then x else best) r)

/-- `get_user_effective_role` from `permissions.py`: `None` when
unauthenticated; OWNER for staff/superusers; otherwise collect the
ownership candidate, the first active direct-user ACL (`.first()`),
and every active group ACL, and return `max` by `ROLE_HIERARCHY`
(or `None` when no candidate was found). -/
def get_user_effective_role (acls : List ACL) (now : Nat) (user : User)
    (document : Document) : Option Role :=
  if user.is_authenticated = false then none
  else if user.is_staff || user.is_superuser then some Role.OWNER
  else
    let roles : List Role :=
      (if document.owner_id = some user.id then [Role.OWNER] else [])
      ++ ((directUserAcls acls now user document).head?.map ACL.role).toList
      ++ (groupAcls acls now user document).map ACL.role
    if roles = [] then none
    else pyMax ROLE_HIERARCHY roles

/-- The candidate roles of the spec's Role Resolver: the ownership
candidate, the roles of all active direct-user grants, and the roles
of all active group grants, in discovery order. -/
def candidateRoles (acls : List ACL) (now : Nat) (user : User)
    (document : Document) : List Role :=
  (if document.owner_id = some user.id then [Role.OWNER] else [])
  ++ (directUserAcls acls now user document).map ACL.role
  ++ (groupAcls acls now user document).map ACL.role

/-- `role_permissions` table from `user_can_perform_action`. -/
def role_permissions : Role → List Action
  | Role.OWNER => [Action.VIEW, Action.EDIT, Action.SHARE, Action.EXPORT]
  | Role.EDITOR => [Action.VIEW, Action.EDIT, Action.EXPORT]
  | Role.VIEWER => [Action.VIEW, Action.EXPORT]

/-- `user_can_perform_action` from `permissions.py`: resolve the
effective role, deny when there is none, otherwise look the action up
in the static `role_permissions` table. -/
def user_can_perform_action (acls : List ACL) (now : Nat) (user : User)
    (document : Document) (action : Action) : Bool :=
  match get_user_effective_role acls now user document with
  | none => false
  | some role => decide (action ∈ role_permissions role)

/-! ### Lemmas about Python's `max` with a key function -/

theorem ROLE_HIERARCHY_inj (a b : Role)
    (h : ROLE_HIERARCHY a = ROLE_HIERARCHY b) : a = b := by
  cases a <;> cases b <;> simp_all [ROLE_HIERARCHY]

theorem pyMax_step_le (k : Role → Nat) (best x : Role) :
    k best ≤ k (if k best < k x then x else best)
    ∧ k x ≤ k (if k best < k x then x else best) := by
  by_cases h : k best < k x
  · simp [h, Nat.le_of_lt h]
  · simp [h, Nat.le_of_not_lt h]

theorem pyMax_fold_mem (k : Role → Nat) :
    ∀ (rs : List Role) (r : Role),
      rs.foldl (fun best x => if k best < k x then x else best) r ∈ r :: rs := by
  intro rs
  induction rs with
  | nil => intro r; simp
  | cons y ys ih =>
    intro r
    have h := ih (if k r < k y then y else r)
    simp only [List.foldl_cons]
    rcases List.mem_cons.mp h with h1 | h1
    · rw [h1]
      by_cases hk : k r < k y <;> simp [hk]
    · exact List.mem_cons_of_mem _ (List.mem_cons_of_mem _ h1)

theorem pyMax_fold_le (k : Role → Nat) :
    ∀ (rs : List Role) (r x : Role), x ∈ r :: rs →
      k x ≤ k (rs.foldl (fun best x => if k best < k x then x else best) r) := by
  intro rs
  induction rs with
  | nil =>
    intro r x hx
    simp at hx
    simp [hx]
  | cons y ys ih =>
    intro r x hx
    simp only [List.foldl_cons]
    rcases List.mem_cons.mp hx with h1 | h1
    · calc k x ≤ k (if k r < k y then y else r) := h1 ▸ (pyMax_step_le k r y).1
        _ ≤ _ := ih _ _ (List.mem_cons_self _ _)
    · rcases List.mem_cons.mp h1 with h2 | h2
      · calc k x ≤ k (if k r < k y then y else r) := h2 ▸ (pyMax_step_le k r y).2
          _ ≤ _ := ih _ _ (List.mem_cons_self _ _)
      · exact ih _ _ (List.mem_cons_of_mem _ h2)

theorem pyMax_eq_none_iff (k : Role → Nat) (l : List Role) :
    pyMax k l = none ↔ l = [] := by
  cases l <;> simp [pyMax]

/-- Characterization of `pyMax` under `ROLE_HIERARCHY`: it returns
`some r` exactly when `r` is a candidate that dominates every
candidate in the hierarchy.  Injectivity of `ROLE_HIERARCHY` makes
the dominant role unique, so the result does not depend on list
order. -/
theorem pyMax_eq_some_iff (l : List Role) (r : Role) :
    pyMax ROLE_HIERARCHY l = some r ↔
      r ∈ l ∧ ∀ x ∈ l, ROLE_HIERARCHY x ≤ ROLE_HIERARCHY r := by
  constructor
  · intro h
    cases l with
    | nil => simp [pyMax] at h
    | cons a as =>
      simp only [pyMax, Option.some.injEq] at h
      subst h
      exact ⟨pyMax_fold_mem _ as a, fun x hx => pyMax_fold_le _ as a x hx⟩
  · rintro ⟨hmem, hdom⟩
    cases l with
    | nil => cases hmem
    | cons a as =>
      have hm := pyMax_fold_mem ROLE_HIERARCHY as a
      have h1 := hdom _ hm
      have h2 := pyMax_fold_le ROLE_HIERARCHY as a r hmem
      simp only [pyMax, Option.some.injEq]
      exact ROLE_HIERARCHY_inj _ _ (Nat.le_antisymm h1 h2)

theorem pyMax_perm {l₁ l₂ : List Role} (h : l₁.Perm l₂) :
    pyMax ROLE_HIERARCHY l₁ = pyMax ROLE_HIERARCHY l₂ := by
  cases h₂ : pyMax ROLE_HIERARCHY l₂ with
  | none =>
    rw [pyMax_eq_none_iff] at h₂ ⊢
    exact (h₂ ▸ h).eq_nil
  | some r =>
    rw [pyMax_eq_some_iff] at h₂ ⊢
    exact ⟨h.mem_iff.mpr h₂.1, fun x hx => h₂.2 x (h.subset hx)⟩

theorem head_opt_map_toList_of_le_one (l : List ACL) (h : l.length ≤ 1) :
    ((l.head?).map ACL.role).toList = l.map ACL.role := by
  match l with
  | [] => rfl
  | [a] => rfl
  | a :: b :: t => simp at h

/-- Under the upsert invariant (at most one stored direct-user grant
for the key), the role list built by `get_user_effective_role` is
exactly `candidateRoles`, so the code computes the `pyMax` of the
candidate roles. -/
theorem effective_role_eq_pyMax_candidates
    (acls : List ACL) (now : Nat) (user : User) (document : Document)
    (hauth : user.is_authenticated = true)
    (hstaff : user.is_staff = false) (hsuper : user.is_superuser = false)
    (huniq : (directUserAcls acls now user document).length ≤ 1) :
    get_user_effective_role acls now user document =
      if candidateRoles acls now user document = [] then none
      else pyMax ROLE_HIERARCHY (candidateRoles acls now user document) := by
  unfold get_user_effective_role candidateRoles
  rw [hauth, hstaff, hsuper]
  simp only [Bool.or_self, Bool.false_eq_true, Bool.true_eq_false, if_false]
  rw [head_opt_map_toList_of_le_one _ huniq]

theorem roles_guard_none_iff (l : List Role) :
    (if l = [] then (none : Option Role) else pyMax ROLE_HIERARCHY l) = none ↔
      l = [] := by
  by_cases h : l = []
  · simp [h]
  · rw [if_neg h]
    simp [pyMax_eq_none_iff, h]

theorem direct_part_nil_iff (l : List ACL) :
    ((l.head?).map ACL.role).toList = [] ↔ l = [] := by
  cases l <;> simp

theorem directUserAcls_eq_nil_iff (acls : List ACL) (now : Nat) (user : User)
    (document : Document) :
    directUserAcls acls now user document = [] ↔
      ∀ a ∈ acls, MatchesDirectUser user document a → ¬ ActiveAt now a := by
  unfold directUserAcls
  rw [List.filter_eq_nil_iff]
  constructor
  · intro h a ha hm hact
    exact h a ha (by simp [hm, (aclActive_iff now a).mpr hact])
  · intro h a ha hb
    simp only [Bool.and_eq_true, decide_eq_true_eq, aclActive_iff] at hb
    exact h a ha hb.1 hb.2

theorem groupAcls_eq_nil_iff (acls : List ACL) (now : Nat) (user : User)
    (document : Document) :
    groupAcls acls now user document = [] ↔
      ∀ a ∈ acls, MatchesGroup user document a → ¬ ActiveAt now a := by
  unfold groupAcls
  rw [List.filter_eq_nil_iff]
  constructor
  · intro h a ha hm hact
    exact h a ha (by simp [hm, (aclActive_iff now a).mpr hact])
  · intro h a ha hb
    simp only [Bool.and_eq_true, decide_eq_true_eq, aclActive_iff] at hb
    exact h a ha hb.1 hb.2

/-! ### Demonstration fixtures (used by witnesses) -/

/-- Document 1, owned by user 1, at version 1. -/
def demoDoc : Document :=
  { id := 1, title := "doc", html := some "<p>v1</p>", text := some "v1",
    owner_id := some 1, current_version_no := 1 }

/-- Authenticated non-admin user 2, member of group 10. -/
def demoUserB : User :=
  { id := 2, is_authenticated := true, is_staff := false,
    is_superuser := false, groups := [10] }

/-- A VIEWER grant to group 10 and an EDITOR grant to user 2, both
without expiry, in that discovery order. -/
def demoAcls : List ACL :=
  [ { document_id := 1, subject_type := SubjectType.group, subject_id := "10",
      role := Role.VIEWER, expires_at := none },
    { document_id := 1, subject_type := SubjectType.user, subject_id := "2",
      role := Role.EDITOR, expires_at := none } ]

/-- Authenticated non-admin user 3 with no group memberships. -/
def demoUserC : User :=
  { id := 3, is_authenticated := true, is_staff := false,
    is_superuser := false, groups := [] }

/-- User 3's only grant: an EDITOR grant that expired at time 5. -/
def demoExpiredAcls : List ACL :=
  [ { document_id := 1, subject_type := SubjectType.user, subject_id := "3",
      role := Role.EDITOR, expires_at := some 5 } ]

/-! ### C1 -/

/-- C1: for an authenticated non-admin subject, under the grant
store's upsert invariant (at most one stored active direct-user grant
per key), the effective role on a document is exactly the maximum,
under OWNER > EDITOR > VIEWER, of the candidate roles collected from
ownership, active direct user grants, and active group grants; and
the result is invariant under permuting the order in which the grant
rows are discovered.  In particular (see the witness) a subject with
a VIEWER group grant and an EDITOR direct grant resolves to EDITOR. -/
theorem effective_role_is_max_of_candidates
    (acls : List ACL) (now : Nat) (user : User) (document : Document)
    (hauth : user.is_authenticated = true)
    (hstaff : user.is_staff = false) (hsuper : user.is_superuser = false)
    (huniq : (directUserAcls acls now user document).length ≤ 1) :
    (∀ r, get_user_effective_role acls now user document = some r ↔
        r ∈ candidateRoles acls now user document ∧
        ∀ x ∈ candidateRoles acls now user document,
          ROLE_HIERARCHY x ≤ ROLE_HIERARCHY r)
    ∧ ∀ acls', acls.Perm acls' →
        get_user_effective_role acls' now user document =
          get_user_effective_role acls now user document := by
  have hmax := effective_role_eq_pyMax_candidates acls now user document
    hauth hstaff hsuper huniq
  constructor
  · intro r
    rw [hmax]
    by_cases hc : candidateRoles acls now user document = []
    · simp [hc]
    · rw [if_neg hc, pyMax_eq_some_iff]
  · intro acls' hperm
    have hpermD : (directUserAcls acls now user document).Perm
        (directUserAcls acls' now user document) := hperm.filter _
    have huniq' : (directUserAcls acls' now user document).length ≤ 1 := by
      rw [← hpermD.length_eq]; exact huniq
    have hpermC : (candidateRoles acls now user document).Perm
        (candidateRoles acls' now user document) := by
      unfold candidateRoles
      exact List.Perm.append
        (List.Perm.append (List.Perm.refl _) (hpermD.map _))
        (((hperm.filter _).map _))
    rw [effective_role_eq_pyMax_candidates acls' now user document
      hauth hstaff hsuper huniq', hmax]
    by_cases hc : candidateRoles acls now user document = []
    · have hc' : candidateRoles acls' now user document = [] :=
        (hc ▸ hpermC).symm.eq_nil
      rw [if_pos hc', if_pos hc]
    · have hc' : candidateRoles acls' now user document ≠ [] := by
        intro h
        exact hc (h ▸ hpermC).eq_nil
      rw [if_neg hc', if_neg hc, pyMax_perm hpermC]

/-- Witness for C1: user 2 (VIEWER via group 10 plus direct EDITOR on
document 1) resolves to EDITOR. -/
theorem effective_role_is_max_of_candidates_witness :
    get_user_effective_role demoAcls 0 demoUserB demoDoc = some Role.EDITOR :=
  ((effective_role_is_max_of_candidates demoAcls 0 demoUserB demoDoc
      rfl rfl rfl (by decide)).1 Role.EDITOR).mpr (by decide)

/-! ### C2 -/

/-- C2: for an authenticated non-admin subject, the effective role is
`none` exactly when the subject is not the owner and has no active
direct-user grant and no active group grant; and (second conjunct) a
subject whose every relevant grant has an expiry strictly in the past
resolves to `none`.  Absence of access is the ordinary `none` return
value of the total function, not an error. -/
theorem effective_role_none_iff_no_active_grant
    (acls : List ACL) (now : Nat) (user : User) (document : Document)
    (hauth : user.is_authenticated = true)
    (hstaff : user.is_staff = false) (hsuper : user.is_superuser = false) :
    (get_user_effective_role acls now user document = none ↔
      document.owner_id ≠ some user.id
      ∧ (∀ a ∈ acls, MatchesDirectUser user document a → ¬ ActiveAt now a)
      ∧ (∀ a ∈ acls, MatchesGroup user document a → ¬ ActiveAt now a))
    ∧ (document.owner_id ≠ some user.id →
        (∀ a ∈ acls,
          MatchesDirectUser user document a ∨ MatchesGroup user document a →
          ∃ t, a.expires_at = some t ∧ t < now) →
        get_user_effective_role acls now user document = none) := by
  have key : get_user_effective_role acls now user document = none ↔
      document.owner_id ≠ some user.id
      ∧ (∀ a ∈ acls, MatchesDirectUser user document a → ¬ ActiveAt now a)
      ∧ (∀ a ∈ acls, MatchesGroup user document a → ¬ ActiveAt now a) := by
    unfold get_user_effective_role
    rw [hauth, hstaff, hsuper]
    simp only [Bool.or_self, Bool.false_eq_true, Bool.true_eq_false, if_false]
    rw [roles_guard_none_iff]
    rw [List.append_eq_nil, List.append_eq_nil]
    rw [direct_part_nil_iff, directUserAcls_eq_nil_iff, List.map_eq_nil_iff,
      groupAcls_eq_nil_iff]
    by_cases h : document.owner_id = some user.id
    · simp [h]
    · simp [h, and_assoc]
  refine ⟨key, ?_⟩
  intro howner hexp
  apply key.mpr
  refine ⟨howner, ?_, ?_⟩
  · intro a ha hm hact
    rcases hexp a ha (Or.inl hm) with ⟨t, het, hlt⟩
    rcases hact with h0 | ⟨t', het', hnow⟩
    · rw [h0] at het; cases het
    · rw [het] at het'
      injection het' with h
      omega
  · intro a ha hm hact
    rcases hexp a ha (Or.inr hm) with ⟨t, het, hlt⟩
    rcases hact with h0 | ⟨t', het', hnow⟩
    · rw [h0] at het; cases het
    · rw [het] at het'
      injection het' with h
      omega

/-- Witness for C2: user 3, whose only grant is an EDITOR grant that
expired at time 5, has no effective role at time 10. -/
theorem effective_role_none_iff_no_active_grant_witness :
    get_user_effective_role demoExpiredAcls 10 demoUserC demoDoc = none :=
  (effective_role_none_iff_no_active_grant demoExpiredAcls 10 demoUserC demoDoc
      rfl rfl rfl).2 (by decide)
    (fun a ha _ => by
      simp only [demoExpiredAcls, List.mem_singleton] at ha
      subst ha
      exact ⟨5, rfl, by omega⟩)

/-! ### C3 -/

/-- The capability table exactly as the specification tabulates it:
OWNER allows VIEW, EDIT, SHARE, EXPORT; EDITOR allows VIEW, EDIT,
EXPORT but not SHARE; VIEWER allows VIEW and EXPORT but not EDIT or
SHARE; no effective role allows nothing. -/
def specCapability : Option Role → Action → Bool
  | some Role.OWNER, Action.VIEW => true
  | some Role.OWNER, Action.EDIT => true
  | some Role.OWNER, Action.SHARE => true
  | some Role.OWNER, Action.EXPORT => true
  | some Role.EDITOR, Action.VIEW => true
  | some Role.EDITOR, Action.EDIT => true
  | some Role.EDITOR, Action.SHARE => false
  | some Role.EDITOR, Action.EXPORT => true
  | some Role.VIEWER, Action.VIEW => true
  | some Role.VIEWER, Action.EDIT => false
  | some Role.VIEWER, Action.SHARE => false
  | some Role.VIEWER, Action.EXPORT => true
  | none, _ => false

/-- C3: `user_can_perform_action` agrees with the specification's
static capability table applied to the effective role, for every
subject, document, grant table, time and action; in particular a
subject with no effective role is denied every action. -/
theorem can_perform_matches_capability_table
    (acls : List ACL) (now : Nat) (user : User) (document : Document)
    (action : Action) :
    user_can_perform_action acls now user document action =
      specCapability (get_user_effective_role acls now user document) action := by
  unfold user_can_perform_action
  cases h : get_user_effective_role acls now user document with
  | none => rfl
  | some r => cases r <;> cases action <;> rfl

/-! ### Share links (`views.py`: `document_share_links`,
`share_link_revoke`, `share_link_access`) -/

/-- A `ShareLink` row from `models.py`. -/
structure ShareLink where
  id : Nat
  document_id : Nat
  role : Role
  token : String
  expires_at : Option Nat
  revoked_at : Option Nat
  deriving DecidableEq, Repr

/-- The caller-supplied payload of the share-link create endpoint
(`ShareLinkCreateSerializer` fields `role` and `expires_at`). -/
structure ShareLinkRequest where
  role : Role
  expires_at : Option Nat
  deriving DecidableEq, Repr

/-- The POST branch of `document_share_links`: deny unless the caller
may SHARE the document; otherwise save the serializer with
`role='VIEWER'` (overriding whatever role the payload carried) and
materialize an ACL row for the link, also with role `'VIEWER'` and
the link's expiry.  `newId`/`newToken` stand for the DB-generated pk
and `secrets.token_urlsafe(32)`. -/
def document_share_links_post (acls : List ACL) (now : Nat) (user : User)
    (document : Document) (req : ShareLinkRequest) (newId : Nat)
    (newToken : String) : Option (ShareLink × ACL) :=
  if user_can_perform_action acls now user document Action.SHARE then
    let share_link : ShareLink :=
      { id := newId, document_id := document.id, role := Role.VIEWER,
        token := newToken, expires_at := req.expires_at, revoked_at := none }
    let acl : ACL :=
      { document_id := document.id, subject_type := SubjectType.share_link,
        subject_id := toString share_link.id, role := Role.VIEWER,
        expires_at := share_link.expires_at }
    some (share_link, acl)
  else none

/-- `share_link_revoke`: deny unless the caller may SHARE the link's
document; otherwise stamp `revoked_at = now` on the link and delete
every ACL row keyed `(document, 'share_link', str(link.id))`.  The
result is the updated link table and ACL table. -/
def share_link_revoke (links : List ShareLink) (acls : List ACL) (now : Nat)
    (user : User) (document : Document) (link_id : Nat) :
    Option (List ShareLink × List ACL) :=
  match links.find? (fun sl => sl.id == link_id) with
  | none => none
  | some sl =>
    if user_can_perform_action acls now user document Action.SHARE then
      some
        (links.map fun l =>
          if l.id == link_id then { l with revoked_at := some now } else l,
         acls.filter fun a =>
          !(a.document_id == sl.document_id
            && a.subject_type == SubjectType.share_link
            && a.subject_id == toString sl.id))
    else none

/-- Outcome of resolving a share token, as the endpoint distinguishes
them: 404 "Share link not found", 404 "Share link has expired", or a
200 payload carrying the document, the `access_role`, and the link
id. -/
inductive ShareAccess where
  | notFound
  | expired
  | granted (document_id : Nat) (access_role : Role) (share_link_id : Nat)
  deriving DecidableEq, Repr

/-- The tail of the `share_link_access` handler once the link is in
hand: the expiry check `expires_at < now` (⇒ "expired"), then a 200
response whose `access_role` is `share_link.role`. -/
def shareLinkOutcome (now : Nat) (sl : ShareLink) : ShareAccess :=
  match sl.expires_at with
  | some t =>
    if t < now then ShareAccess.expired
    else ShareAccess.granted sl.document_id sl.role sl.id
  | none => ShareAccess.granted sl.document_id sl.role sl.id

/-- `share_link_access`: `ShareLink.objects.get(token=token,
revoked_at__isnull=True)` (DoesNotExist ⇒ "not found"), then the
expiry-and-respond tail.  The ACL table is a parameter only to record
that the handler never reads it. -/
def share_link_access (links : List ShareLink) (acls : List ACL)
    (token : String) (now : Nat) : ShareAccess :=
  match links.find? (fun sl => sl.token == token && sl.revoked_at.isNone) with
  | none => ShareAccess.notFound
  | some sl => shareLinkOutcome now sl

theorem share_link_access_of_find_none (links : List ShareLink)
    (acls : List ACL) (token : String) (now : Nat)
    (hf : links.find? (fun sl => sl.token == token && sl.revoked_at.isNone) =
      none) :
    share_link_access links acls token now = ShareAccess.notFound := by
  unfold share_link_access
  rw [hf]

theorem share_link_access_of_find_some (links : List ShareLink)
    (acls : List ACL) (token : String) (now : Nat) (sl : ShareLink)
    (hf : links.find? (fun sl => sl.token == token && sl.revoked_at.isNone) =
      some sl) :
    share_link_access links acls token now = shareLinkOutcome now sl := by
  unfold share_link_access
  rw [hf]

/-! ### Share-link fixtures -/

/-- User 1, the owner of `demoDoc`. -/
def demoOwner : User :=
  { id := 1, is_authenticated := true, is_staff := false,
    is_superuser := false, groups := [] }

/-- A create payload asking for an OWNER share link. -/
def demoOwnerRoleRequest : ShareLinkRequest :=
  { role := Role.OWNER, expires_at := none }

/-- The rows the create endpoint persists for `demoOwnerRoleRequest`. -/
def demoCreated : ShareLink × ACL :=
  ({ id := 7, document_id := 1, role := Role.VIEWER, token := "tok7",
     expires_at := none, revoked_at := none },
   { document_id := 1, subject_type := SubjectType.share_link,
     subject_id := "7", role := Role.VIEWER, expires_at := none })

/-- A revoked share link (revoked at time 3). -/
def demoRevokedLink : ShareLink :=
  { id := 7, document_id := 1, role := Role.VIEWER, token := "tok",
    expires_at := none, revoked_at := some 3 }

/-- The ACL row that was materialized for `demoRevokedLink` and not
yet deleted. -/
def demoRevokedAcl : ACL :=
  { document_id := 1, subject_type := SubjectType.share_link,
    subject_id := "7", role := Role.VIEWER, expires_at := none }

/-- A share link that expired at time 2. -/
def demoExpiredLink : ShareLink :=
  { id := 8, document_id := 1, role := Role.VIEWER, token := "old",
    expires_at := some 2, revoked_at := none }

/-- A tampered link record carrying role EDITOR. -/
def demoEditorLink : ShareLink :=
  { id := 5, document_id := 1, role := Role.EDITOR, token := "t",
    expires_at := none, revoked_at := none }

/-- A healthy VIEWER link. -/
def demoViewerLink : ShareLink :=
  { id := 9, document_id := 1, role := Role.VIEWER, token := "good",
    expires_at := none, revoked_at := none }

/-! ### C4 -/

/-- C4: whenever the share-link create endpoint succeeds, both the
persisted `ShareLink` row and the materialized ACL row carry role
VIEWER, no matter what role the request payload asked for (OWNER
included), and no matter the caller, document, grant table or time. -/
theorem share_link_create_forces_viewer
    (acls : List ACL) (now : Nat) (user : User) (document : Document)
    (req : ShareLinkRequest) (newId : Nat) (newToken : String)
    (share_link : ShareLink) (acl : ACL)
    (h : document_share_links_post acls now user document req newId newToken =
      some (share_link, acl)) :
    share_link.role = Role.VIEWER ∧ acl.role = Role.VIEWER := by
  unfold document_share_links_post at h
  by_cases hp : user_can_perform_action acls now user document Action.SHARE = true
  · rw [if_pos hp] at h
    cases h
    exact ⟨rfl, rfl⟩
  · rw [if_neg hp] at h
    cases h

/-- Witness for C4: owner user 1 requests an OWNER share link on
document 1; both persisted rows come out VIEWER. -/
theorem share_link_create_forces_viewer_witness :
    demoCreated.1.role = Role.VIEWER ∧ demoCreated.2.role = Role.VIEWER :=
  share_link_create_forces_viewer [] 0 demoOwner demoDoc demoOwnerRoleRequest
    7 "tok7" demoCreated.1 demoCreated.2 (by decide)

/-! ### C5 -/

/-- Counterexample to C5 as stated: a `ShareLink` row whose stored
role is EDITOR (not revoked, not expired) resolves with
`access_role = EDITOR`, not with the fixed VIEWER role — the handler
returns `share_link.role` verbatim and does not clamp it to VIEWER
when the ShareLink record itself carries a higher role. -/
theorem share_link_access_returns_stored_role_counterexample :
    share_link_access [demoEditorLink] [] "t" 0 =
      ShareAccess.granted 1 Role.EDITOR 5
    ∧ Role.EDITOR ≠ Role.VIEWER := by
  refine ⟨rfl, ?_⟩
  intro h
  cases h

/-- C5 (amended): a successful share-token resolution re-derives its
role from the ShareLink record itself — the returned `access_role` is
exactly the stored role of a matching unrevoked link — and the
materialized Grant (ACL) rows are never consulted: the outcome is
identical for any two ACL tables.  A link whose record carries VIEWER
therefore resolves to VIEWER, but resolution itself does not clamp a
tampered ShareLink record down to VIEWER. -/
theorem share_link_access_role_from_record
    (links : List ShareLink) (acls acls' : List ACL) (token : String)
    (now : Nat) :
    share_link_access links acls token now =
      share_link_access links acls' token now
    ∧ ∀ d r i, share_link_access links acls token now =
        ShareAccess.granted d r i →
        ∃ sl, sl ∈ links ∧ sl.token = token ∧ sl.revoked_at = none ∧
          r = sl.role ∧ d = sl.document_id ∧ i = sl.id := by
  constructor
  · rfl
  · intro d r i h
    cases hf : links.find? (fun sl => sl.token == token && sl.revoked_at.isNone) with
    | none =>
      rw [share_link_access_of_find_none links acls token now hf] at h
      cases h
    | some sl =>
      rw [share_link_access_of_find_some links acls token now sl hf] at h
      have hmem := List.mem_of_find?_eq_some hf
      have hprop := List.find?_some hf
      simp only [Bool.and_eq_true, beq_iff_eq, Option.isNone_iff_eq_none] at hprop
      unfold shareLinkOutcome at h
      have hout : ShareAccess.granted sl.document_id sl.role sl.id =
          ShareAccess.granted d r i := by
        cases he : sl.expires_at with
        | none =>
          rw [he] at h
          exact h
        | some t =>
          rw [he] at h
          have h2 : (if t < now then ShareAccess.expired
              else ShareAccess.granted sl.document_id sl.role sl.id) =
              ShareAccess.granted d r i := h
          by_cases hlt : t < now
          · rw [if_pos hlt] at h2
            cases h2
          · rw [if_neg hlt] at h2
            exact h2
      cases hout
      exact ⟨sl, hmem, hprop.1, hprop.2, rfl, rfl, rfl⟩

/-- Witness for C5's amended theorem: resolving token "good" against
a well-formed VIEWER link yields a matching record whose stored role
is the returned role. -/
theorem share_link_access_role_from_record_witness :
    ∃ sl, sl ∈ [demoViewerLink] ∧ sl.token = "good" ∧ sl.revoked_at = none ∧
      Role.VIEWER = sl.role ∧ 1 = sl.document_id ∧ 9 = sl.id :=
  (share_link_access_role_from_record [demoViewerLink] [] [] "good" 0).2
    1 Role.VIEWER 9 (by decide)

/-! ### C6 -/

/-- C6: share-token resolution denies (i) whenever every link bearing
the token is revoked — in particular in a state where the link's
materialized ACL row still sits in the grant table, which resolution
ignores; (ii) whenever no link bears the token; and (iii) with the
distinct "expired" outcome when the matching unrevoked link's
`expires_at` is strictly in the past. -/
theorem share_link_access_denies_revoked_missing_expired
    (links : List ShareLink) (acls : List ACL) (token : String) (now : Nat) :
    ((∀ sl ∈ links, sl.token = token → sl.revoked_at ≠ none) →
      share_link_access links acls token now = ShareAccess.notFound)
    ∧ ((∀ sl ∈ links, sl.token ≠ token) →
      share_link_access links acls token now = ShareAccess.notFound)
    ∧ (∀ sl, links.find? (fun l => l.token == token && l.revoked_at.isNone) =
        some sl →
      ∀ t, sl.expires_at = some t → t < now →
      share_link_access links acls token now = ShareAccess.expired) := by
  refine ⟨?_, ?_, ?_⟩
  · intro hrev
    apply share_link_access_of_find_none
    rw [List.find?_eq_none]
    intro sl hmem hb
    simp only [Bool.and_eq_true, beq_iff_eq, Option.isNone_iff_eq_none] at hb
    exact hrev sl hmem hb.1 hb.2
  · intro habs
    apply share_link_access_of_find_none
    rw [List.find?_eq_none]
    intro sl hmem hb
    simp only [Bool.and_eq_true, beq_iff_eq, Option.isNone_iff_eq_none] at hb
    exact habs sl hmem hb.1
  · intro sl hf t he hlt
    rw [share_link_access_of_find_some links acls token now sl hf]
    unfold shareLinkOutcome
    rw [he]
    show (if t < now then ShareAccess.expired
        else ShareAccess.granted sl.document_id sl.role sl.id) =
      ShareAccess.expired
    rw [if_pos hlt]

/-- Witness for C6: the revoked link resolves to "not found" although
its materialized ACL row is still present; a fresh token resolves to
"not found"; the expired link resolves to "expired". -/
theorem share_link_access_denies_revoked_missing_expired_witness :
    share_link_access [demoRevokedLink] [demoRevokedAcl] "tok" 4 =
      ShareAccess.notFound
    ∧ share_link_access [] [] "zzz" 0 = ShareAccess.notFound
    ∧ share_link_access [demoExpiredLink] [] "old" 9 = ShareAccess.expired := by
  refine ⟨?_, ?_, ?_⟩
  · exact (share_link_access_denies_revoked_missing_expired
      [demoRevokedLink] [demoRevokedAcl] "tok" 4).1 (by decide)
  · exact (share_link_access_denies_revoked_missing_expired
      [] [] "zzz" 0).2.1 (by decide)
  · exact (share_link_access_denies_revoked_missing_expired
      [demoExpiredLink] [] "old" 9).2.2 demoExpiredLink (by decide) 2 rfl
      (by decide)

/-! ### Version ledger (`views.py`: `DocumentListCreateView.post`,
`DocumentDetailView.perform_update`, `document_restore_version`) -/

/-- A `DocumentVersion` row from `models.py`. -/
structure DocumentVersion where
  id : Nat
  document_id : Nat
  version_no : Nat
  html : Option String
  text : Option String
  author_id : Option Nat
  change_note : Option String
  hash : Option String
  deriving DecidableEq, Repr

/-- The per-document state the versioning endpoints touch: the
Document row and its DocumentVersion ledger in insertion order. -/
structure DocState where
  doc : Document
  versions : List DocumentVersion
  deriving DecidableEq, Repr

/-- `DocumentListCreateView.post` after successful validation:
`Document.objects.create` leaves `current_version_no` at its model
default 1, then the initial `DocumentVersion` is created with
`version_no=1`, the document's content, and note "Initial document
creation" (no hash is passed).  `docId`/`verId` stand for the
DB-generated primary keys. -/
def documentCreate (docId verId : Nat) (author owner : Option Nat)
    (title : String) (html text : Option String) : DocState :=
  { doc := { id := docId, title := title, html := html, text := text,
             owner_id := owner, current_version_no := 1 },
    versions := [{ id := verId, document_id := docId, version_no := 1,
                   html := html, text := text, author_id := author,
                   change_note := some "Initial document creation",
                   hash := none }] }

/-- `DocumentDetailView.perform_update`: the serializer first saves
the submitted title/html/text onto the Document row; then, only if
`old_html != updated_document.html`, a new `DocumentVersion` with
`version_no = current_version_no + 1` is created and
`current_version_no` is advanced to it; otherwise no version row is
written and `current_version_no` stays. -/
def perform_update (st : DocState) (author : Option Nat) (newVerId : Nat)
    (newTitle : String) (newHtml newText : Option String) : DocState :=
  let updated : Document :=
    { st.doc with title := newTitle, html := newHtml, text := newText }
  if st.doc.html ≠ newHtml then
    { doc := { updated with
        current_version_no := updated.current_version_no + 1 },
      versions := st.versions ++
        [{ id := newVerId, document_id := updated.id,
           version_no := updated.current_version_no + 1, html := updated.html,
           text := updated.text, author_id := author,
           change_note := some "Document updated via API", hash := none }] }
  else { doc := updated, versions := st.versions }

/-- `document_restore_version`: deny without EDIT permission
(`DocumentAccessPermission` falls through to the same EDIT check for
POST, and the view re-checks EDIT explicitly); 404 when no version
with the given id belongs to the document; otherwise create one new
version whose `version_no` is `current_version_no + 1`, whose content
and hash are copied from the target version, and whose note is the
caller's note annotated `" (restored from version N)"`, then write
the restored content and the new number back to the Document row. -/
def document_restore_version (acls : List ACL) (now : Nat) (user : User)
    (st : DocState) (version_id : Nat) (change_note : String)
    (newVerId : Nat) : Option DocState :=
  if user_can_perform_action acls now user st.doc Action.EDIT then
    match st.versions.find? (fun v =>
        v.id == version_id && v.document_id == st.doc.id) with
    | none => none
    | some restore_version =>
      let new_version : DocumentVersion :=
        { id := newVerId, document_id := st.doc.id,
          version_no := st.doc.current_version_no + 1,
          html := restore_version.html, text := restore_version.text,
          author_id := some user.id,
          change_note := some (change_note ++ " (restored from version "
            ++ toString restore_version.version_no ++ ")"),
          hash := restore_version.hash }
      let newDoc : Document :=
        { st.doc with html := restore_version.html,
                      text := restore_version.text,
                      current_version_no := st.doc.current_version_no + 1 }
      some { doc := newDoc, versions := st.versions ++ [new_version] }
  else none

/-- The new row `document_restore_version` appends when restoring
`rv` on state `st` for `user` with note `change_note`. -/
def restoredVersionRow (st : DocState) (user : User) (change_note : String)
    (newVerId : Nat) (rv : DocumentVersion) : DocumentVersion :=
  { id := newVerId, document_id := st.doc.id,
    version_no := st.doc.current_version_no + 1,
    html := rv.html, text := rv.text, author_id := some user.id,
    change_note := some (change_note ++ " (restored from version "
      ++ toString rv.version_no ++ ")"),
    hash := rv.hash }

/-- Characterization of a successful restore: there is a target row
`rv` in the ledger with the requested id, and the result state keeps
every pre-existing version row unchanged, appends exactly the one new
row `restoredVersionRow`, and advances `current_version_no` by 1
while writing back `rv`'s content. -/
theorem restore_eq_some_spec (acls : List ACL) (now : Nat) (user : User)
    (st : DocState) (version_id : Nat) (change_note : String)
    (newVerId : Nat) (st' : DocState)
    (h : document_restore_version acls now user st version_id change_note
      newVerId = some st') :
    ∃ rv, rv ∈ st.versions ∧ rv.id = version_id ∧
      rv.document_id = st.doc.id ∧
      st'.versions = st.versions ++ [restoredVersionRow st user change_note newVerId rv] ∧
      st'.doc.current_version_no = st.doc.current_version_no + 1 ∧
      st'.doc.html = rv.html ∧ st'.doc.text = rv.text := by
  unfold document_restore_version at h
  by_cases hp : user_can_perform_action acls now user st.doc Action.EDIT = true
  · rw [if_pos hp] at h
    cases hf : st.versions.find? (fun v =>
        v.id == version_id && v.document_id == st.doc.id) with
    | none => rw [hf] at h; cases h
    | some rv =>
      rw [hf] at h
      have hmem := List.mem_of_find?_eq_some hf
      have hprop := List.find?_some hf
      simp only [Bool.and_eq_true, beq_iff_eq] at hprop
      cases h
      exact ⟨rv, hmem, hprop.1, hprop.2, rfl, rfl, rfl, rfl⟩
  · rw [if_neg hp] at h
    cases h

/-! ### C7 -/

/-- C7: a successful restore never mutates the stored row of the
target version or of any other pre-existing version — the whole old
ledger survives unchanged as a prefix — and it creates exactly one
new version, numbered `current_version_no + 1` as of the call, whose
content equals the target's content and whose change note carries the
`" (restored from version N)"` annotation. -/
theorem restore_appends_and_never_mutates
    (acls : List ACL) (now : Nat) (user : User) (st : DocState)
    (version_id : Nat) (change_note : String) (newVerId : Nat)
    (st' : DocState)
    (h : document_restore_version acls now user st version_id change_note
      newVerId = some st') :
    ∃ rv, rv ∈ st.versions ∧ rv.id = version_id ∧
      st'.versions = st.versions ++
        [restoredVersionRow st user change_note newVerId rv] ∧
      (restoredVersionRow st user change_note newVerId rv).version_no =
        st.doc.current_version_no + 1 ∧
      (restoredVersionRow st user change_note newVerId rv).html = rv.html ∧
      (restoredVersionRow st user change_note newVerId rv).text = rv.text ∧
      (restoredVersionRow st user change_note newVerId rv).change_note =
        some (change_note ++ " (restored from version "
          ++ toString rv.version_no ++ ")") := by
  rcases restore_eq_some_spec acls now user st version_id change_note newVerId
    st' h with ⟨rv, hmem, hid, _, hvers, _, _, _⟩
  exact ⟨rv, hmem, hid, hvers, rfl, rfl, rfl, rfl⟩

/-! Fixtures: document 1 at version 3 with a three-entry ledger. -/

/-- Ledger entry 1 of the demo document. -/
def demoVersionRow1 : DocumentVersion :=
  { id := 11, document_id := 1, version_no := 1, html := some "<p>v1</p>",
    text := some "v1", author_id := some 1,
    change_note := some "Initial document creation", hash := none }

/-- Ledger entry 2 of the demo document. -/
def demoVersionRow2 : DocumentVersion :=
  { id := 12, document_id := 1, version_no := 2, html := some "<p>v2</p>",
    text := some "v2", author_id := some 1,
    change_note := some "Document updated via API", hash := none }

/-- Ledger entry 3 of the demo document. -/
def demoVersionRow3 : DocumentVersion :=
  { id := 13, document_id := 1, version_no := 3, html := some "<p>v3</p>",
    text := some "v3", author_id := some 1,
    change_note := some "Document updated via API", hash := none }

/-- Document 1 at version 3 together with its ledger. -/
def demoState3 : DocState :=
  { doc := { id := 1, title := "doc", html := some "<p>v3</p>",
             text := some "v3", owner_id := some 1,
             current_version_no := 3 },
    versions := [demoVersionRow1, demoVersionRow2, demoVersionRow3] }

/-- The state produced by restoring version id 11 on `demoState3`. -/
def demoRestoredState : DocState :=
  { doc := { id := 1, title := "doc", html := some "<p>v1</p>",
             text := some "v1", owner_id := some 1,
             current_version_no := 4 },
    versions := [demoVersionRow1, demoVersionRow2, demoVersionRow3,
      { id := 14, document_id := 1, version_no := 4, html := some "<p>v1</p>",
        text := some "v1", author_id := some 1,
        change_note := some "Restored (restored from version 1)",
        hash := none }] }

/-- Witness for C7: the owner restores document 1 (at version 3)
to ledger entry 11 (version 1); the ledger is extended by one new row
numbered 4 carrying version 1's content, old rows untouched. -/
theorem restore_appends_and_never_mutates_witness :
    ∃ rv, rv ∈ demoState3.versions ∧ rv.id = 11 ∧
      demoRestoredState.versions = demoState3.versions ++
        [restoredVersionRow demoState3 demoOwner "Restored" 14 rv] ∧
      (restoredVersionRow demoState3 demoOwner "Restored" 14 rv).version_no =
        demoState3.doc.current_version_no + 1 ∧
      (restoredVersionRow demoState3 demoOwner "Restored" 14 rv).html = rv.html ∧
      (restoredVersionRow demoState3 demoOwner "Restored" 14 rv).text = rv.text ∧
      (restoredVersionRow demoState3 demoOwner "Restored" 14 rv).change_note =
        some ("Restored" ++ " (restored from version "
          ++ toString rv.version_no ++ ")") :=
  restore_appends_and_never_mutates [] 0 demoOwner demoState3 11 "Restored" 14
    demoRestoredState (by decide)

/-! ### C8 -/

/-- The document states reachable through the three write paths of
the code: creation, content update, version restore. -/
inductive Reachable : DocState → Prop
  | created (docId verId : Nat) (author owner : Option Nat) (title : String)
      (html text : Option String) :
      Reachable (documentCreate docId verId author owner title html text)
  | updated (st : DocState) (author : Option Nat) (newVerId : Nat)
      (newTitle : String) (newHtml newText : Option String) :
      Reachable st →
      Reachable (perform_update st author newVerId newTitle newHtml newText)
  | restored (acls : List ACL) (now : Nat) (user : User) (st : DocState)
      (version_id : Nat) (change_note : String) (newVerId : Nat)
      (st' : DocState) : Reachable st →
      document_restore_version acls now user st version_id change_note
        newVerId = some st' →
      Reachable st'

/-- The ledger invariant of the spec: the newest (last-appended)
ledger entry exists and its `version_no` equals the document's
`current_version_no`, and no ledger entry exceeds that number. -/
def LedgerInvariant (st : DocState) : Prop :=
  (∃ v, st.versions.getLast? = some v ∧
    v.version_no = st.doc.current_version_no)
  ∧ ∀ v ∈ st.versions, v.version_no ≤ st.doc.current_version_no

/-- C8: after every reachable sequence of create / update / restore
operations, `current_version_no` equals the version number of the
newest ledger entry (and bounds every entry).  Creation establishes
it with version 1 and `current_version_no = 1`; each append advances
both together. -/
theorem current_version_matches_ledger (st : DocState)
    (h : Reachable st) : LedgerInvariant st := by
  induction h with
  | created docId verId author owner title html text =>
    exact ⟨⟨_, rfl, rfl⟩, by
      intro v hv
      simp only [documentCreate, List.mem_singleton] at hv
      simp [hv, documentCreate]⟩
  | updated st author newVerId newTitle newHtml newText _ ih =>
    rcases ih with ⟨⟨w, hlast, hw⟩, hbound⟩
    unfold perform_update
    by_cases hch : st.doc.html ≠ newHtml
    · rw [if_pos hch]
      refine ⟨⟨_, List.getLast?_concat _, rfl⟩, ?_⟩
      intro v hv
      rcases List.mem_append.mp hv with hv | hv
      · exact Nat.le_succ_of_le (hbound v hv)
      · simp only [List.mem_singleton] at hv
        simp [hv]
    · rw [if_neg hch]
      exact ⟨⟨w, hlast, hw⟩, hbound⟩
  | restored acls now user st version_id change_note newVerId st' _ heq ih =>
    rcases ih with ⟨⟨w, hlast, hw⟩, hbound⟩
    rcases restore_eq_some_spec acls now user st version_id change_note
      newVerId st' heq with ⟨rv, _, _, _, hvers, hcvn, _, _⟩
    unfold LedgerInvariant
    rw [hvers, hcvn]
    refine ⟨⟨_, List.getLast?_concat _, rfl⟩, ?_⟩
    intro v hv
    rcases List.mem_append.mp hv with hv | hv
    · exact Nat.le_succ_of_le (hbound v hv)
    · simp only [List.mem_singleton] at hv
      simp [hv, restoredVersionRow]

/-- Witness for C8: the invariant holds for a freshly created
document (version 1 with `current_version_no = 1`). -/
theorem current_version_matches_ledger_witness :
    LedgerInvariant (documentCreate 1 11 (some 1) (some 1) "doc"
      (some "<p>v1</p>") (some "v1")) :=
  current_version_matches_ledger _
    (Reachable.created 1 11 (some 1) (some 1) "doc"
      (some "<p>v1</p>") (some "v1"))

/-! ### C10 -/

/-- C10: an update whose submitted html equals the stored html (for
example a title-only change) writes no new DocumentVersion and leaves
`current_version_no` unchanged; and whenever the html differs, the
update appends exactly one new version numbered
`current_version_no + 1` and advances the pointer with it. -/
theorem update_appends_version_only_on_html_change
    (st : DocState) (author : Option Nat) (newVerId : Nat)
    (newTitle : String) (newHtml newText : Option String) :
    (newHtml = st.doc.html →
      (perform_update st author newVerId newTitle newHtml newText).versions =
        st.versions ∧
      (perform_update st author newVerId newTitle newHtml
        newText).doc.current_version_no = st.doc.current_version_no)
    ∧ (newHtml ≠ st.doc.html →
      ∃ v, (perform_update st author newVerId newTitle newHtml
          newText).versions = st.versions ++ [v] ∧
        v.version_no = st.doc.current_version_no + 1 ∧
        (perform_update st author newVerId newTitle newHtml
          newText).doc.current_version_no = st.doc.current_version_no + 1) := by
  constructor
  · intro hsame
    unfold perform_update
    rw [if_neg (by simp [hsame])]
    exact ⟨rfl, rfl⟩
  · intro hdiff
    unfold perform_update
    rw [if_pos (Ne.symm hdiff)]
    exact ⟨_, rfl, rfl, rfl⟩

/-- Witness for C10: submitting the stored html of `demoState3` with
only a new title leaves the ledger and the version pointer untouched. -/
theorem update_appends_version_only_on_html_change_witness :
    (perform_update demoState3 (some 1) 15 "renamed" (some "<p>v3</p>")
      (some "v3")).versions = demoState3.versions ∧
    (perform_update demoState3 (some 1) 15 "renamed" (some "<p>v3</p>")
      (some "v3")).doc.current_version_no =
      demoState3.doc.current_version_no :=
  (update_appends_version_only_on_html_change demoState3 (some 1) 15 "renamed"
    (some "<p>v3</p>") (some "v3")).1 (by decide)

/-! ### Audit recorder (`audit.py`: `log_audit_event`) -/

/-- An `AuditLog` row from `models.py` (the JSON `context` field is
kept abstract as a string). -/
structure AuditLogRow where
  actor_user : Option Nat
  action : Action
  document_id : Option Nat
  version_no : Option Nat
  ts : Nat
  ip : Option String
  user_agent : Option String
  context : String
  share_link_id : Option Nat
  qr_link_id : Option Nat
  deriving DecidableEq, Repr

/-- The request data `log_audit_event` reads: the authenticated user
if any, and the IP / user-agent strings extracted by `get_client_ip`
and `get_user_agent`. -/
structure AuditRequest where
  user_id : Option Nat
  ip : Option String
  user_agent : String
  deriving DecidableEq, Repr

/-- The row assembled inside the `try:` block of `log_audit_event`:
the actor is the explicit argument, or else the request's
authenticated user; ip and user-agent come from the request when one
is passed; the timestamp is the server-side `timezone.now()`. -/
def auditRow (action : Action) (request : Option AuditRequest)
    (actor_user : Option Nat) (document_id version_no : Option Nat)
    (context : String) (share_link_id qr_link_id : Option Nat)
    (now : Nat) : AuditLogRow :=
  let actor : Option Nat :=
    match request, actor_user with
    | some req, none => req.user_id
    | _, a => a
  { actor_user := actor, action := action, document_id := document_id,
    version_no := version_no, ts := now,
    ip := request.bind AuditRequest.ip,
    user_agent := request.map AuditRequest.user_agent,
    context := context, share_link_id := share_link_id,
    qr_link_id := qr_link_id }

/-- `log_audit_event`: the body runs under `try:`; `persist` stands
for `AuditLog.objects.create`, the step that can raise.  The
`except Exception` clause catches any failure, logs it, and returns
`None`, so the recorder itself returns normally either way — on
success with `some` of the created entry, on persistence failure
with `none`. -/
def log_audit_event (persist : AuditLogRow → Except String AuditLogRow)
    (action : Action) (request : Option AuditRequest)
    (actor_user : Option Nat) (document_id version_no : Option Nat)
    (context : String) (share_link_id qr_link_id : Option Nat)
    (now : Nat) : Except String (Option AuditLogRow) :=
  match persist (auditRow action request actor_user document_id version_no
      context share_link_id qr_link_id now) with
  | Except.ok audit_entry => Except.ok (some audit_entry)
  | Except.error _ => Except.ok none

/-! ### C9 -/

/-- C9: for every audit write, whatever the persistence layer does,
`log_audit_event` returns normally — it is never an `Except.error` —
and whenever persisting the assembled row fails, the recorder
swallows the failure and returns `Except.ok none` (a normal return
with a null result), so no persistence exception ever propagates to
the caller's primary operation. -/
theorem audit_failure_swallowed
    (persist : AuditLogRow → Except String AuditLogRow) (action : Action)
    (request : Option AuditRequest)
    (actor_user document_id version_no : Option Nat) (context : String)
    (share_link_id qr_link_id : Option Nat) (now : Nat) :
    (∃ v, log_audit_event persist action request actor_user document_id
        version_no context share_link_id qr_link_id now = Except.ok v)
    ∧ ∀ e, persist (auditRow action request actor_user document_id version_no
          context share_link_id qr_link_id now) = Except.error e →
        log_audit_event persist action request actor_user document_id
          version_no context share_link_id qr_link_id now =
          Except.ok none := by
  constructor
  · cases hp : persist (auditRow action request actor_user document_id
        version_no context share_link_id qr_link_id now) with
    | ok audit_entry =>
      refine ⟨some audit_entry, ?_⟩
      unfold log_audit_event
      rw [hp]
    | error e =>
      refine ⟨none, ?_⟩
      unfold log_audit_event
      rw [hp]
  · intro e he
    unfold log_audit_event
    rw [he]

/-- A persistence layer that always fails (for example, the audit
table is unreachable). -/
def demoFailingPersist : AuditLogRow → Except String AuditLogRow :=
  fun _ => Except.error "db down"

/-- Witness for C9: even when persistence always fails, recording an
EDIT event returns `Except.ok none` — a normal return, no exception. -/
theorem audit_failure_swallowed_witness :
    log_audit_event demoFailingPersist Action.EDIT none (some 1) (some 1)
      (some 2) "ctx" none none 5 = Except.ok none :=
  (audit_failure_swallowed demoFailingPersist Action.EDIT none (some 1)
    (some 1) (some 2) "ctx" none none 5).2 "db down" rfl

end StagePerf
